import Mathlib

/-!
# Verification of the reg-poc-verifier core against its specification

Shallow embedding of the two engines of the vLEI report verifier:

* the Authorization Escrow Engine (`src/verifier/core/authorizing.py` and the
  presentation endpoint in `src/verifier/core/verifying.py`),
* the Report Ingestion & Verification Pipeline
  (`src/verifier/core/reporting.py`),

over a pure model of the keri LMDB sub-databases (`src/verifier/core/basing.py`):
`CesrSuber`/`Komer` cells become association lists (`pin` overwrites, `get`
looks up, `rem` deletes), `CesrIoSetSuber` multi-sets become duplicate-free
lists of pairs (`add` inserts if absent, `rem` removes the pair).

External collaborators (key-state resolution, raw signature verification, the
zip decoder and the filesystem walk of the extracted archive) are passed in as
environment records of functions, exactly as wide as the interfaces the code
consumes.
-/

/-- `Suber.get`: first value stored under key `k`, if any. -/
def lookupA {κ α : Type} [DecidableEq κ] : List (κ × α) → κ → Option α
  | [], _ => none
  | p :: rest, k => if p.1 = k then some p.2 else lookupA rest k

/-- `Suber.pin`: set the value at key `k`, overwriting an existing entry. -/
def pinA {κ α : Type} [DecidableEq κ] : List (κ × α) → κ → α → List (κ × α)
  | [], k, v => [(k, v)]
  | p :: rest, k, v => if p.1 = k then (k, v) :: rest else p :: pinA rest k v

/-- `Suber.rem`: delete every entry stored under key `k`. -/
def remA {κ α : Type} [DecidableEq κ] (l : List (κ × α)) (k : κ) : List (κ × α) :=
  l.filter (fun p => decide (p.1 ≠ k))

/-- `CesrIoSetSuber.add`: insert a member into the set at a key if not present. -/
def ioAdd {κ α : Type} [DecidableEq κ] [DecidableEq α]
    (l : List (κ × α)) (k : κ) (v : α) : List (κ × α) :=
  if (k, v) ∈ l then l else l ++ [(k, v)]

/-- `CesrIoSetSuber.rem`: remove one member from the set at a key. -/
def ioRem {κ α : Type} [DecidableEq κ] [DecidableEq α]
    (l : List (κ × α)) (k : κ) (v : α) : List (κ × α) :=
  l.filter (fun p => decide (p ≠ (k, v)))

/-! ## Authorization Escrow Engine (`authorizing.py`, `verifying.py`) -/

/-- `authorizing.EBA_DOCUMENT_SUBMITTER_ROLE`. -/
def EBA_DOCUMENT_SUBMITTER_ROLE : String := "EBA Document Submitter"

/-- `authorizing.Schema.ECR_SCHEMA_SAID`. -/
def ECR_SCHEMA_SAID : String := "EEy9PkikFcANV1l7EHukCeXqrzT1hNZjGlUk7wuMO5jw"

/-- `Authorizer.TimeoutAuth` (seconds). -/
def TimeoutAuth : Nat := 600

/-- A resolved credential as consumed by `Authorizer` (`creder`): its SAID,
schema SAID, registry identifier (`creder.status`) and the subject section
fields `i`, `LEI` and `engagementContextRole` that the ECR business rule
reads. -/
structure Cred where
  said : String
  schema : String
  status : String
  subjectI : String
  subjectLEI : String
  subjectRole : String
  deriving DecidableEq, Repr

/-- Python runtime exceptions surfacing from the embedded code paths:
`AttributeError` (access to an attribute the object does not define) and
`IndexError` (out-of-range subscript). -/
inductive PyErr
  | attributeError (attr : String)
  | indexError
  deriving DecidableEq, Repr

/-- The verifier database state touched by the escrow engine
(`VerifierBaser.iss`, `.rev`, `.accts`).  Timestamps (`Dater`) are modelled
as `Nat` seconds.  `authorizing.py` also references a `vdb.revk` audit store,
but `VerifierBaser` (basing.py) defines no such sub-database — it has no
counterpart here, and accessing it is an `AttributeError`. -/
structure AuthState where
  iss : List (String × Nat)
  rev : List (String × Nat)
  accts : List (String × String)
  deriving DecidableEq, Repr

/-- External collaborators of the escrow engine: the key-state database
(`hby.kevers`, membership only — `kever.serder.pre` of the kever stored under
prefix `p` is `p` itself), the configured LEI allow-list, and the credential
registry (`reger.saved`, `reger.creds`, `reger.ccrd`,
`reger.tevers[regk].vcState(said)` flattened to one lookup returning the ilk
of the latest transaction event). `creds` is total because keri guarantees a
credential object exists for every member of `saved`. -/
structure AuthEnv where
  kevers : List String
  leis : List String
  saved : List String
  creds : String → Cred
  ccrd : String → Option Cred
  vcState : String → String → Option String

/-- `Authorizer.processEcr`: authorize the subject of a fully verified ECR
credential presentation when its key-state resolves, its LEI is allow-listed
and its role is the required one; on success pin
`accts[kever.serder.pre] = creder.saider`. -/
def processEcr (env : AuthEnv) (st : AuthState) (c : Cred) : AuthState :=
  if c.subjectI ∈ env.kevers then
    if c.subjectLEI ∈ env.leis then
      if c.subjectRole = EBA_DOCUMENT_SUBMITTER_ROLE then
        { st with accts := pinA st.accts c.subjectI c.said }
      else st
    else st
  else st

/-- One iteration of the `Authorizer.processPresentations` loop body for the
escrow entry `(said, receivedAt)`. -/
def presStep (env : AuthEnv) (now : Nat) (acc : AuthState) (e : String × Nat) : AuthState :=
  if TimeoutAuth < now - e.2 then
    { acc with iss := remA acc.iss e.1 }
  else if e.1 ∈ env.saved then
    let acc1 := { acc with iss := remA acc.iss e.1 }
    let c := env.creds e.1
    if c.schema = ECR_SCHEMA_SAID then processEcr env acc1 c else acc1
  else acc

/-- `Authorizer.processPresentations`: sweep the presentation escrow (a
snapshot of `iss` taken at loop entry, as `getItemIter` does). -/
def processPresentations (env : AuthEnv) (now : Nat) (st : AuthState) : AuthState :=
  st.iss.foldl (presStep env now) st

/-- One iteration of the `Authorizer.processRevocations` loop body,
returning the database state as mutated so far together with the Python
exception the iteration raises, if any.  On a confirmed revocation
(`rev`/`brv` ilk) the code first removes the escrow entry (`vdb.rev.rem`)
and then evaluates `self.vdb.revk` — but `VerifierBaser` defines no `revk`
sub-database, so that attribute access raises `AttributeError` and no audit
record is written. -/
def revStep (env : AuthEnv) (now : Nat) (acc : AuthState) (e : String × Nat) :
    AuthState × Option PyErr :=
  if TimeoutAuth < now - e.2 then
    ({ acc with rev := remA acc.rev e.1 }, none)
  else
    match env.ccrd e.1 with
    | none => (acc, none)
    | some c =>
      match env.vcState c.status c.said with
      | none => (acc, none)
      | some et =>
        if et = "iss" ∨ et = "bis" then (acc, none)
        else if et = "rev" ∨ et = "brv" then
          ({ acc with rev := remA acc.rev e.1 }, some (PyErr.attributeError "revk"))
        else (acc, none)

/-- The `processRevocations` loop over a snapshot of the revocation escrow:
each iteration's database mutations persist; the first exception aborts the
loop and propagates. -/
def revSweep (env : AuthEnv) (now : Nat) :
    AuthState → List (String × Nat) → AuthState × Option PyErr
  | acc, [] => (acc, none)
  | acc, e :: rest =>
    match (revStep env now acc e).2 with
    | none => revSweep env now (revStep env now acc e).1 rest
    | some err => ((revStep env now acc e).1, some err)

/-- `Authorizer.processRevocations`: sweep the revocation escrow, returning
the mutated state and the exception that escaped the loop, if any. -/
def processRevocations (env : AuthEnv) (now : Nat) (st : AuthState) :
    AuthState × Option PyErr :=
  revSweep env now st st.rev

/-- `Authorizer.processEscrows`: one full sweep — presentations, then
revocations; an exception raised by the revocation loop propagates out of
the sweep (and past `AuthorizationDoer.recur`), the mutations made before it
persisting. -/
def processEscrows (env : AuthEnv) (now : Nat) (st : AuthState) :
    AuthState × Option PyErr :=
  processRevocations env now (processPresentations env now st)

/-- The write performed by `PresentationResourceEndpoint.on_put` once the body
parsed and the presented SAID was confirmed:
`vdb.iss.pin(keys=(saider.qb64,), val=now)` — the spec's
`recordPresentation(said)`. -/
def recordPresentation (st : AuthState) (said : String) (now : Nat) : AuthState :=
  { st with iss := pinA st.iss said now }

/-! ## Report Ingestion & Store (`reporting.py`, `basing.py`) -/

/-- `reporting.ReportStatus` (`Reportage` namedtuple of status strings). -/
inductive Status
  | accepted
  | verified
  | failed
  deriving DecidableEq, Repr

/-- `basing.ReportStats` dataclass. -/
structure ReportStats where
  submitter : String
  filename : String
  status : Status
  contentType : String
  size : Nat
  message : String
  deriving DecidableEq, Repr

/-- The verifier sub-databases touched by `Filer` and `ReportVerifier`:
`stats` (`Komer` of `ReportStats` keyed by digest), `stts` (status → digest
`CesrIoSetSuber`), `rpts` (submitter AID → digest set) and `imgs` (raw chunks
keyed by digest and chunk index; bytes as `List Nat`). -/
structure FilerDB where
  stats : List (String × ReportStats)
  stts : List (Status × String)
  rpts : List (String × String)
  imgs : List ((String × Nat) × List Nat)
  deriving DecidableEq, Repr

/-- The empty verifier database. -/
def emptyFilerDB : FilerDB := { stats := [], stts := [], rpts := [], imgs := [] }

/-- `Filer.create`: clear any existing chunk range for `dig`
(`delTopVal(imgs, dig)`), write the uploaded stream chunk by chunk
accumulating the size, then record `ReportStats` in `accepted` status, add
`dig` to the submitter's report set and to the `accepted` status set.  The
stream is modelled as the list of successive non-empty `stream.read(4096)`
results. -/
def Filer.create (db : FilerDB) (aid dig filename typ : String)
    (chunks : List (List Nat)) : FilerDB :=
  let imgs0 := db.imgs.filter (fun p => decide (p.1.1 ≠ dig))
  let imgs1 := imgs0 ++ chunks.enum.map (fun p => ((dig, p.1), p.2))
  let stats : ReportStats :=
    { submitter := aid, filename := filename, status := Status.accepted,
      contentType := typ, size := (chunks.map List.length).sum, message := "" }
  { db with
    imgs := imgs1,
    rpts := ioAdd db.rpts aid dig,
    stts := ioAdd db.stts Status.accepted dig,
    stats := pinA db.stats dig stats }

/-- `Filer.get`. -/
def Filer.get (db : FilerDB) (dig : String) : Option ReportStats :=
  lookupA db.stats dig

/-- `Filer.update`: read the current `ReportStats` (silently report `false` if
absent), remove the digest from its current status set, overwrite status (and
message when given), add it to the new status set and pin the stats back. -/
def Filer.update (db : FilerDB) (dig : String) (status : Status)
    (msg : Option String) : FilerDB × Bool :=
  match lookupA db.stats dig with
  | none => (db, false)
  | some st =>
    let stts1 := ioRem db.stts st.status dig
    let st1 : ReportStats := { st with status := status, message := msg.getD st.message }
    ({ db with stts := ioAdd stts1 status dig, stats := pinA db.stats dig st1 }, true)

/-- One chunk lookup in `imgs` (`getVal`). -/
def lookupImg (db : FilerDB) (dig : String) (idx : Nat) : Option (List Nat) :=
  lookupA db.imgs (dig, idx)

/-- `Filer.getData` unrolled with fuel: yield chunks at increasing indices,
stopping at the first missing or empty (falsy) chunk. -/
def getDataAux (db : FilerDB) (dig : String) : Nat → Nat → List (List Nat)
  | 0, _ => []
  | fuel + 1, idx =>
    match lookupImg db dig idx with
    | none => []
    | some c => if c.isEmpty then [] else c :: getDataAux db dig fuel (idx + 1)

/-- `Filer.getData`: the sequence of stored chunks for `dig` from index 0. -/
def Filer.getData (db : FilerDB) (dig : String) : List (List Nat) :=
  getDataAux db dig (db.imgs.length + 1) 0

/-- The digests currently in the `accepted` status set
(`Filer.getAcceptedIter`, snapshot at call time). -/
def acceptedKeys (db : FilerDB) : List String :=
  (db.stts.filter (fun p => decide (p.1 = Status.accepted))).map Prod.snd

/-- An externally invocable mutation of the report store: `Filer.create`
(from `ReportResourceEnd.on_post`) or `Filer.update` (from the verification
sweep). -/
inductive FilerOp
  | create (aid dig filename typ : String) (chunks : List (List Nat))
  | update (dig : String) (status : Status) (msg : Option String)

/-- Apply one operation to the store. -/
def applyOp (db : FilerDB) : FilerOp → FilerDB
  | FilerOp.create a d f t ch => Filer.create db a d f t ch
  | FilerOp.update d s m => (Filer.update db d s m).1

/-- Apply a sequence of operations. -/
def applyOps (db : FilerDB) (ops : List FilerOp) : FilerDB :=
  ops.foldl applyOp db

/-- Check, while replaying a sequence of operations, that every `create`
targets a digest with no existing `ReportStats` record (a fresh upload, no
re-upload under an existing digest). -/
def freshRun : FilerDB → List FilerOp → Bool
  | _, [] => true
  | db, op :: rest =>
    (match op with
     | FilerOp.create _ d _ _ _ => (lookupA db.stats d).isNone
     | FilerOp.update _ _ _ => true)
    && freshRun (applyOp db op) rest

/-! ## Report Verification Worker (`ReportVerifier.recur`) -/

/-- The Python exceptions that can arise inside one iteration of
`ReportVerifier.recur`:  `kering.ValidationError`, `zipfile.BadZipFile`,
`KeyError`/`OSError` (caught by the inner per-entry handler),
`json.JSONDecodeError` (from `json.load` on a malformed manifest),
`IndexError` (from `kever.verfers[siger.index]`) and `AttributeError`
(attribute access on `None`). -/
inductive Err
  | validation (msg : String)
  | badZip
  | keyError (k : String)
  | osError
  | jsonDecode
  | indexError
  | attrError
  deriving DecidableEq, Repr

/-- The exception classes named by the outer `except` clause of `recur`:
`(kering.ValidationError, zipfile.BadZipFile)`. -/
def catchableOuter : Err → Bool
  | Err.validation _ => true
  | Err.badZip => true
  | _ => false

/-- `e.args[0]` of a caught exception, used as the failure message. -/
def errMsg : Err → String
  | Err.validation m => m
  | _ => "File is not a zip file"

/-- A parsed signature (`coring.Siger`): declared key index and raw bytes. -/
structure Siger where
  index : Nat
  raw : String
  deriving DecidableEq, Repr

/-- Key state for one AID (`hby.kevers[aid]`): its current verification keys
(`kever.verfers`), each an opaque key string. -/
structure KeverRec where
  verfers : List String
  deriving DecidableEq, Repr

/-- One entry of `documentInfo.signatures`; each field is `none` when the
corresponding JSON key is missing (a `KeyError` on access). -/
structure SigEntry where
  file : Option String
  aid : Option String
  sigs : Option (List Siger)
  deriving DecidableEq, Repr

/-- The `documentInfo` object; `signatures` is `none` when the key is
missing. -/
structure DocInfo where
  signatures : Option (List SigEntry)
  deriving DecidableEq, Repr

/-- A parsed `reports.json` object; `documentInfo` is `none` when the key is
missing. -/
structure Manifest where
  documentInfo : Option DocInfo
  deriving DecidableEq, Repr

/-- The `META-INF/reports.json` file as found on disk: either not valid JSON
(`json.load` raises) or a parsed object. -/
inductive ManifestFile
  | malformed
  | wellFormed (m : Manifest)
  deriving DecidableEq, Repr

/-- One triple yielded by `os.walk` over the extracted archive, decorated with
what the loop body observes at this root: whether `META-INF/reports.json`
exists and parses (`manifestFile`), and `os.listdir` of the `reports`
directory.  Paths are component lists. -/
structure WalkEntry where
  root : List String
  dirs : List String
  files : List String
  manifestFile : Option ManifestFile
  reportsListing : List String
  deriving DecidableEq, Repr

/-- The loop variables of the walk in `recur`: `manifest`, `metaDir` and
`files` (the last of which is rebound by every iteration of `os.walk`). -/
structure WalkSt where
  manifest : Option Manifest
  metaDir : List String
  files : List String
  deriving DecidableEq, Repr

/-- Initial walk state (`files = []`, `manifest = None`). -/
def walkInit : WalkSt := { manifest := none, metaDir := [], files := [] }

/-- Left fold in the `Except` monad, written out so that each theorem can
follow the Python loop step by step. -/
def foldE {σ α ε : Type} (f : σ → α → Except ε σ) : σ → List α → Except ε σ
  | s, [] => Except.ok s
  | s, a :: l =>
    match f s a with
    | Except.error e => Except.error e
    | Except.ok s' => foldE f s' l

/-- One iteration of the `os.walk` loop in `recur`: rebind `files` to the
walk triple's file list; on a root containing both `META-INF` and `reports`,
set `metaDir`, and if `reports.json` exists load it (raising on malformed
JSON or a missing `documentInfo`) and rebind `files` to the `reports`
listing. -/
def walkStep (st : WalkSt) (w : WalkEntry) : Except Err WalkSt :=
  let st1 := { st with files := w.files }
  if "META-INF" ∈ w.dirs ∧ "reports" ∈ w.dirs then
    let st2 := { st1 with metaDir := w.root ++ ["META-INF"] }
    match w.manifestFile with
    | none => Except.ok st2
    | some ManifestFile.malformed => Except.error Err.jsonDecode
    | some (ManifestFile.wellFormed m) =>
      match m.documentInfo with
      | none =>
        Except.error (Err.validation
          "Invalid manifest file in report package, missing 'documentInfo")
      | some _ => Except.ok { st2 with manifest := some m, files := w.reportsListing }
  else Except.ok st1

/-- Split a path string at `/` separators (character-level, so that it
computes definitionally). -/
def splitSlashAux : List Char → List Char → List String
  | [], acc => [String.mk acc.reverse]
  | c :: rest, acc =>
    if c = '/' then String.mk acc.reverse :: splitSlashAux rest []
    else splitSlashAux rest (c :: acc)

/-- Components of a path string. -/
def splitSlash (s : String) : List String := splitSlashAux s.data []

/-- `os.path.normpath(os.path.join(base, rel))` on component lists: split the
relative path on `/` and resolve `.` and `..` against the base. -/
def normJoin (base : List String) (rel : String) : List String :=
  (splitSlash rel).foldl
    (fun acc c =>
      if c = "" ∨ c = "." then acc
      else if c = ".." then acc.dropLast
      else acc ++ [c])
    base

/-- `os.path.basename` of a component list. -/
def basename (p : List String) : String := p.getLastD ""

/-- External collaborators of the verification worker: key-state lookup,
raw-signature verification (`verfer.verify(raw, ser)`), the extracted
archive's file contents (`open(fullpath).read()`, `none` meaning `OSError`)
and the zip decoder applied to the reassembled upload. -/
structure REnv where
  kevers : List (String × KeverRec)
  verifySig : String → String → String → Bool
  readFile : List String → Option String
  decodeZip : List (List Nat) → Except Err (List WalkEntry)

/-- The inner `for siger in sigers` loop: resolve each signer key by its
declared index in the current key state (an out-of-range index is an
`IndexError`) and verify it against the file bytes. -/
def verifySigs (env : REnv) (kever : KeverRec) (ser file : String) :
    List Siger → Except Err Unit
  | [] => Except.ok ()
  | s :: rest =>
    match kever.verfers.get? s.index with
    | none => Except.error Err.indexError
    | some verfer =>
      if env.verifySig verfer s.raw ser then verifySigs env kever ser file rest
      else Except.error (Err.validation
        ("signature " ++ toString s.index ++ " invalid for " ++ file))

/-- The body of the inner `try` for one manifest signature entry, in source
order: read the `file` key, append the normalized base name to `signed`,
read the file bytes, read the `aid` key, skip the rest if the aid is not the
submitter, otherwise check key state, read `sigs`, require at least one
signature and verify each one. -/
def entryInner (env : REnv) (sub : String) (metaDir : List String)
    (signed : List String) (e : SigEntry) : Except Err (List String) :=
  match e.file with
  | none => Except.error (Err.keyError "file")
  | some file =>
    let fullpath := normJoin metaDir file
    let signed1 := signed ++ [basename fullpath]
    match env.readFile fullpath with
    | none => Except.error Err.osError
    | some ser =>
      match e.aid with
      | none => Except.error (Err.keyError "aid")
      | some aid =>
        if aid = sub then
          match lookupA env.kevers aid with
          | none => Except.error (Err.validation ("signature from unknown AID " ++ aid))
          | some kever =>
            match e.sigs with
            | none => Except.error (Err.keyError "sigs")
            | some sigs =>
              if sigs.length = 0 then
                Except.error (Err.validation ("missing signatures on " ++ file))
              else
                match verifySigs env kever ser file sigs with
                | Except.error er => Except.error er
                | Except.ok _ => Except.ok signed1
        else Except.ok signed1

/-- One manifest signature entry with the inner `except` clauses applied:
`KeyError` and `OSError` are converted to `kering.ValidationError`; every
other outcome passes through. -/
def processEntry (env : REnv) (sub : String) (metaDir : List String)
    (signed : List String) (e : SigEntry) : Except Err (List String) :=
  match entryInner env sub metaDir signed e with
  | Except.error (Err.keyError k) =>
    Except.error (Err.validation
      ("Invalid signature in manifest signature listmissing '" ++ k ++ "'"))
  | Except.error Err.osError =>
    Except.error (Err.validation "signature element points to invalid file")
  | r => r

/-- The body of `recur` for one report after zip extraction: walk the
directory tree for the manifest, require `documentInfo` and `signatures`,
process each signature entry accumulating `signed`, and compare
`set(files) - set(signed)`; empty difference means `verified`, otherwise
`failed` listing the difference. -/
def verifyWalk (env : REnv) (stats : ReportStats) (walk : List WalkEntry) :
    Except Err (Status × String) :=
  match foldE walkStep walkInit walk with
  | Except.error e => Except.error e
  | Except.ok wst =>
    match wst.manifest with
    | none => Except.error (Err.validation "No manifest in file, invalid signed report package")
    | some m =>
      match m.documentInfo with
      | none => Except.error (Err.keyError "documentInfo")
      | some di =>
        match di.signatures with
        | none => Except.error (Err.validation "No signatures found in manifest file")
        | some entries =>
          match foldE (processEntry env stats.submitter wst.metaDir) [] entries with
          | Except.error e => Except.error e
          | Except.ok signed =>
            let diff := wst.files.dedup.filter (fun f => decide (¬ f ∈ signed))
            if diff.length = 0 then
              Except.ok (Status.verified,
                "All " ++ toString wst.files.length ++
                " files in report package have been signed by submitter (" ++
                stats.submitter ++ ").")
            else
              Except.ok (Status.failed,
                toString diff.length ++ " files from report package not signed " ++
                toString diff ++ ", " ++ toString signed)

/-- Processing of one accepted digest inside the `try` of `recur`: read its
stats record (`stats.filename` on a missing record is an `AttributeError`),
reassemble and unzip the upload, then verify the package. -/
def processOne (env : REnv) (db : FilerDB) (dig : String) :
    Except Err (Status × String) :=
  match lookupA db.stats dig with
  | none => Except.error Err.attrError
  | some stats =>
    match env.decodeZip (Filer.getData db dig) with
    | Except.error e => Except.error e
    | Except.ok walk => verifyWalk env stats walk

/-- One iteration of the `for diger in getAcceptedIter()` loop of `recur`,
with the outer `except (ValidationError, BadZipFile)` clause: a caught
exception becomes a `failed` status update carrying `e.args[0]`; any other
exception propagates out of `recur`. -/
def recurStep (env : REnv) (db : FilerDB) (dig : String) : Except Err FilerDB :=
  match processOne env db dig with
  | Except.ok (st, msg) => Except.ok (Filer.update db dig st (some msg)).1
  | Except.error e =>
    if catchableOuter e then
      Except.ok (Filer.update db dig Status.failed (some (errMsg e))).1
    else Except.error e

/-- `ReportVerifier.recur`: sweep every digest currently in `accepted`
status. -/
def recur (env : REnv) (db : FilerDB) : Except Err FilerDB :=
  foldE (recurStep env) db (acceptedKeys db)

/-! ## HTTP endpoints (`verifying.py`, `reporting.py`) -/

/-- HTTP outcomes of `POST /request/verify/{aid}`. -/
inductive HttpResp
  | notFound
  | forbidden
  | unauthorized
  | accepted
  deriving DecidableEq, Repr

/-- Attribute access on a `keri.core.eventing.Kever`:  its key list is exposed
as `verfers` (as `ReportVerifier.recur` uses); any other attribute name raises
`AttributeError`. -/
def keverAttr (k : KeverRec) (attr : String) : Except PyErr (List String) :=
  if attr = "verfers" then Except.ok k.verfers else Except.error (PyErr.attributeError attr)

/-- `data.decode("utf-8")` where `data` is a `str` (a falcon query parameter):
Python 3 strings have no `decode` method, so this raises `AttributeError`. -/
def strDecode (_ : String) : Except PyErr String :=
  Except.error (PyErr.attributeError "decode")

/-- `RequestVerifierResourceEnd.on_post`: 404 for an unknown AID, 403 for an
AID without an `AuthorizationRecord`, then
`verfers = kever.ververs`, `cigar = coring.Cigar(qb64=sig)` and
`verfers[0].verify(cigar.raw, data.decode("utf-8"))`, returning 401 on a bad
signature and 202 otherwise. -/
def requestVerifyOnPost (kevers : List (String × KeverRec))
    (accts : List (String × String))
    (verify : String → String → String → Bool)
    (aid data sig : String) : Except PyErr HttpResp :=
  match lookupA kevers aid with
  | none => Except.ok HttpResp.notFound
  | some kever =>
    if lookupA accts aid = none then Except.ok HttpResp.forbidden
    else
      match keverAttr kever "ververs" with
      | Except.error e => Except.error e
      | Except.ok verfers =>
        match strDecode data with
        | Except.error e => Except.error e
        | Except.ok msg =>
          match verfers.get? 0 with
          | none => Except.error PyErr.indexError
          | some v =>
            if verify v sig msg then Except.ok HttpResp.accepted
            else Except.ok HttpResp.unauthorized

/-- Outcomes of `GET /reports/{aid}/{dig}`: a 404/403 falcon error, or 200
with the JSON-serialized `ReportStats` (`json.dumps(asdict(stats))`, i.e. the
whole record). -/
inductive ReportGetResp
  | notFound
  | forbidden
  | ok (stats : ReportStats)
  deriving DecidableEq, Repr

/-- `ReportResourceEnd.on_get`: 404 for an unknown AID, 403 for an AID with no
`AuthorizationRecord`, 404 when no stats exist for `dig`, else 200 with the
full stats record.  No field of the stats (in particular not `submitter`) is
compared against `aid`. -/
def reportOnGet (kevers : List String) (accts : List (String × String))
    (db : FilerDB) (aid dig : String) : ReportGetResp :=
  if ¬ aid ∈ kevers then ReportGetResp.notFound
  else if lookupA accts aid = none then ReportGetResp.forbidden
  else
    match Filer.get db dig with
    | none => ReportGetResp.notFound
    | some stats => ReportGetResp.ok stats

/-! ## Concrete fixtures for witnesses and counterexamples -/

/-- The empty escrow-engine database. -/
def emptyAuthState : AuthState := { iss := [], rev := [], accts := [] }

/-- Base name contributed to `signed` by one manifest entry, when its `file`
key is present: `os.path.basename(os.path.normpath(os.path.join(metaDir, file)))`. -/
def entryBase (metaDir : List String) (e : SigEntry) : Option String :=
  e.file.map (fun f => basename (normJoin metaDir f))

/-- Modelled from the spec: the set of base names of files signed by the
submitter alone — base names of exactly those manifest signature entries
whose `aid` equals the report's submitter (the spec's `signedSet` reading,
for comparison against what the code computes). -/
def specSubmitterSigned (metaDir : List String) (sub : String)
    (entries : List SigEntry) : List String :=
  (entries.filter (fun e => decide (e.aid = some sub))).filterMap (entryBase metaDir)

/-- A manifest whose single signature entry names a non-submitter aid (and
carries no signatures at all). -/
def c1Entries : List SigEntry :=
  [{ file := some "../reports/a.xbrl", aid := some "OTHER", sigs := some [] }]

/-- Walk of an archive holding `reports/a.xbrl` and the manifest
`c1Entries`. -/
def c1Walk : List WalkEntry :=
  [{ root := ["r"], dirs := ["META-INF", "reports"], files := [],
     manifestFile := some (ManifestFile.wellFormed
       { documentInfo := some { signatures := some c1Entries } }),
     reportsListing := ["a.xbrl"] }]

/-- Worker environment for the `c1Walk` package: no key state at all and a
signature verifier that rejects everything — no signature can possibly
verify. -/
def c1Env : REnv :=
  { kevers := [],
    verifySig := fun _ _ _ => false,
    readFile := fun p => if p = ["r", "reports", "a.xbrl"] then some "body" else none,
    decodeZip := fun _ => Except.ok c1Walk }

/-- Store holding one accepted report, submitted by `SUB`. -/
def c1Db : FilerDB :=
  { stats := [("D1",
      { submitter := "SUB", filename := "f.zip", status := Status.accepted,
        contentType := "application/zip", size := 4, message := "" })],
    stts := [(Status.accepted, "D1")],
    rpts := [("SUB", "D1")],
    imgs := [(("D1", 0), [1, 2, 3, 4])] }

/-- A manifest signed correctly by the submitter `W1`. -/
def w1Entries : List SigEntry :=
  [{ file := some "../reports/b.xbrl", aid := some "W1", sigs := some [{ index := 0, raw := "sig0" }] }]

/-- Walk of an archive holding `reports/b.xbrl` and the manifest
`w1Entries`. -/
def w1Walk : List WalkEntry :=
  [{ root := ["r"], dirs := ["META-INF", "reports"], files := [],
     manifestFile := some (ManifestFile.wellFormed
       { documentInfo := some { signatures := some w1Entries } }),
     reportsListing := ["b.xbrl"] }]

/-- Worker environment for the `w1Walk` package: `W1` has one key and every
signature verifies. -/
def w1Env : REnv :=
  { kevers := [("W1", { verfers := ["key0"] })],
    verifySig := fun _ _ _ => true,
    readFile := fun p => if p = ["r", "reports", "b.xbrl"] then some "body" else none,
    decodeZip := fun _ => Except.ok w1Walk }

/-- Stats record of the `w1Walk` report. -/
def w1Stats : ReportStats :=
  { submitter := "W1", filename := "g.zip", status := Status.accepted,
    contentType := "application/zip", size := 0, message := "" }

/-- Walk of an archive whose `META-INF/reports.json` is not valid JSON. -/
def c3Walk : List WalkEntry :=
  [{ root := ["r"], dirs := ["META-INF", "reports"], files := [],
     manifestFile := some ManifestFile.malformed, reportsListing := [] }]

/-- Worker environment delivering the malformed-manifest archive. -/
def c3Env : REnv :=
  { kevers := [], verifySig := fun _ _ _ => true, readFile := fun _ => none,
    decodeZip := fun _ => Except.ok c3Walk }

/-- Store holding one accepted report for the malformed-manifest archive. -/
def c3Db : FilerDB :=
  { stats := [("D3",
      { submitter := "S3", filename := "f.zip", status := Status.accepted,
        contentType := "application/zip", size := 0, message := "" })],
    stts := [(Status.accepted, "D3")],
    rpts := [("S3", "D3")],
    imgs := [] }

/-- A manifest entry from the submitter whose signature declares key index 5
while the submitter's key state has no keys: `kever.verfers[5]` is an
`IndexError`. -/
def w3Entries : List SigEntry :=
  [{ file := some "../reports/a", aid := some "S3w", sigs := some [{ index := 5, raw := "sig" }] }]

/-- Walk of the archive with the out-of-range signature index. -/
def w3Walk : List WalkEntry :=
  [{ root := ["r"], dirs := ["META-INF", "reports"], files := [],
     manifestFile := some (ManifestFile.wellFormed
       { documentInfo := some { signatures := some w3Entries } }),
     reportsListing := ["a"] }]

/-- Worker environment for the out-of-range-index archive. -/
def w3Env : REnv :=
  { kevers := [("S3w", { verfers := [] })],
    verifySig := fun _ _ _ => true,
    readFile := fun p => if p = ["r", "reports", "a"] then some "x" else none,
    decodeZip := fun _ => Except.ok w3Walk }

/-- Store holding one accepted report for the out-of-range-index archive. -/
def w3Db : FilerDB :=
  { stats := [("D3w",
      { submitter := "S3w", filename := "f.zip", status := Status.accepted,
        contentType := "application/zip", size := 0, message := "" })],
    stts := [(Status.accepted, "D3w")],
    rpts := [("S3w", "D3w")],
    imgs := [] }

/-- Upload `D`, have the sweep verify it, then re-upload the same digest. -/
def c4Ops : List FilerOp :=
  [FilerOp.create "A" "D" "f" "application/zip" [[1]],
   FilerOp.update "D" Status.verified none,
   FilerOp.create "A" "D" "f" "application/zip" [[1]]]

/-- Fresh uploads only: upload `D`, verify it, upload a different digest. -/
def w4Ops : List FilerOp :=
  [FilerOp.create "A" "D" "f" "application/zip" [[1]],
   FilerOp.update "D" Status.verified (some "ok"),
   FilerOp.create "B" "E" "g" "application/zip" []]

/-- The stats record of `D` after replaying `w4Ops`. -/
def w4Stats : ReportStats :=
  { submitter := "A", filename := "f", status := Status.verified,
    contentType := "application/zip", size := 1, message := "ok" }

/-- Upload `D` and have the sweep verify it. -/
def c5Ops : List FilerOp :=
  [FilerOp.create "A" "D" "f" "application/zip" [[1]],
   FilerOp.update "D" Status.verified none]

/-- Re-upload of the same digest `D` (a second `POST /reports/{aid}/{dig}`). -/
def c5Reupload : FilerOp := FilerOp.create "A" "D" "f" "application/zip" [[1]]

/-- Store holding one report already in `verified` status and nothing in
`accepted`. -/
def w5Db : FilerDB :=
  { stats := [("DV",
      { submitter := "A", filename := "f", status := Status.verified,
        contentType := "application/zip", size := 0, message := "done" })],
    stts := [(Status.verified, "DV")],
    rpts := [("A", "DV")],
    imgs := [] }

/-- Trivial worker environment (never consulted over an empty accepted set). -/
def w5Env : REnv :=
  { kevers := [], verifySig := fun _ _ _ => false, readFile := fun _ => none,
    decodeZip := fun _ => Except.error Err.badZip }

/-- An ECR credential whose subject satisfies all three business rules of
`processEcr` under `c2Env`. -/
def c2Cred : Cred :=
  { said := "SAIDC", schema := ECR_SCHEMA_SAID, status := "REG",
    subjectI := "AID1", subjectLEI := "LEI1",
    subjectRole := "EBA Document Submitter" }

/-- Escrow environment accepting `AID1` and `LEI1`. -/
def c2Env : AuthEnv :=
  { kevers := ["AID1"], leis := ["LEI1"], saved := [],
    creds := fun _ => c2Cred, ccrd := fun _ => none, vcState := fun _ _ => none }

/-- Escrow state with one presentation and one revocation entry, both
received at time 0. -/
def c6St : AuthState :=
  { iss := [("S1", 0)], rev := [("S2", 0)], accts := [] }

/-- Escrow environment in which both `c6St` entries are fully resolvable (so
removal at timeout clearly does not depend on resolution). -/
def c6Env : AuthEnv :=
  { kevers := ["AID1"], leis := ["LEI1"], saved := ["S1", "S2"],
    creds := fun _ => c2Cred, ccrd := fun _ => some c2Cred,
    vcState := fun _ _ => some "rev" }

/-- A credential with a revoked registry state under `c6CexEnv`. -/
def c6CexCred : Cred :=
  { said := "SCX", schema := ECR_SCHEMA_SAID, status := "REGX",
    subjectI := "AIDX", subjectLEI := "LEIX", subjectRole := "EBA Document Submitter" }

/-- Escrow environment in which `SRX` resolves to the revoked `c6CexCred`. -/
def c6CexEnv : AuthEnv :=
  { kevers := [], leis := [], saved := [],
    creds := fun _ => c6CexCred,
    ccrd := fun s => if s = "SRX" then some c6CexCred else none,
    vcState := fun regk said =>
      if regk = "REGX" ∧ said = "SCX" then some "rev" else none }

/-- Escrow state whose revocation escrow holds the unexpired, already-revoked
`SRX` ahead of the expired entry `EXP`. -/
def c6CexSt : AuthState :=
  { iss := [], rev := [("SRX", 900), ("EXP", 0)], accts := [] }

/-- A credential with a revoked registry state under `c7Env`. -/
def c7Cred : Cred :=
  { said := "SC", schema := ECR_SCHEMA_SAID, status := "REG",
    subjectI := "AID7", subjectLEI := "LEI7", subjectRole := "EBA Document Submitter" }

/-- Escrow environment in which `SR` resolves to `c7Cred` whose latest
transaction event is `rev`. -/
def c7Env : AuthEnv :=
  { kevers := [], leis := [], saved := [],
    creds := fun _ => c7Cred,
    ccrd := fun s => if s = "SR" then some c7Cred else none,
    vcState := fun regk said => if regk = "REG" ∧ said = "SC" then some "rev" else none }

/-- Escrow state with a pending revocation for `SR` and one authorization. -/
def c7St : AuthState :=
  { iss := [], rev := [("SR", 10)], accts := [("AID7", "SC")] }

/-- Escrow state with an existing presentation entry for `S` received at 5. -/
def c8St : AuthState :=
  { iss := [("S", 5)], rev := [], accts := [] }

/-- Key-state database for the request-verify endpoint fixture. -/
def c9Kevers : List (String × KeverRec) := [("A9", { verfers := ["key9"] })]

/-- Authorization index for the request-verify endpoint fixture. -/
def c9Accts : List (String × String) := [("A9", "S9")]

/-- Key-state database for the report-status endpoint fixture. -/
def c10Kevers : List String := ["A10"]

/-- Authorization index for the report-status endpoint fixture. -/
def c10Accts : List (String × String) := [("A10", "SA")]

/-- A report submitted by `B10`, a different AID than `A10`. -/
def c10Stats : ReportStats :=
  { submitter := "B10", filename := "f", status := Status.verified,
    contentType := "application/zip", size := 9, message := "done" }

/-- Store holding `B10`'s report. -/
def c10Db : FilerDB :=
  { stats := [("DX", c10Stats)], stts := [(Status.verified, "DX")],
    rpts := [("B10", "DX")], imgs := [] }

/-- The status-index invariant of the spec: a digest is in the status set `S`
exactly when it has a `ReportStats` record whose status is `S`. -/
def stIdx (db : FilerDB) : Prop :=
  ∀ s d, (s, d) ∈ db.stts ↔ ∃ st, lookupA db.stats d = some st ∧ st.status = s

/-- The walk state produced by walking the `w1Walk` archive. -/
def w1Wst : WalkSt :=
  { manifest := some { documentInfo := some { signatures := some w1Entries } },
    metaDir := ["r", "META-INF"], files := ["b.xbrl"] }

/-! ## Association-list lemmas -/

theorem lookupA_pinA_self {κ α : Type} [DecidableEq κ] (l : List (κ × α)) (k : κ) (v : α) :
    lookupA (pinA l k v) k = some v := by
  induction l with
  | nil => simp [pinA, lookupA]
  | cons p rest ih =>
    by_cases h : p.1 = k
    · simp [pinA, h, lookupA]
    · simp [pinA, h, lookupA, ih]

theorem lookupA_pinA_ne {κ α : Type} [DecidableEq κ] (l : List (κ × α)) (k k' : κ) (v : α)
    (h : k ≠ k') : lookupA (pinA l k v) k' = lookupA l k' := by
  induction l with
  | nil => simp [pinA, lookupA, h]
  | cons p rest ih =>
    by_cases hp : p.1 = k
    · simp [pinA, hp, lookupA, h]
    · simp [pinA, hp, lookupA, ih]

theorem notMem_keys_remA {κ α : Type} [DecidableEq κ] (l : List (κ × α)) (k : κ) :
    k ∉ (remA l k).map Prod.fst := by
  intro h
  simp only [remA, List.mem_map, List.mem_filter, decide_eq_true_eq] at h
  obtain ⟨p, ⟨_, hne⟩, hk⟩ := h
  exact hne hk

theorem keys_remA_mono {κ α : Type} [DecidableEq κ] (l : List (κ × α)) (k k' : κ)
    (h : k ∉ l.map Prod.fst) : k ∉ (remA l k').map Prod.fst := by
  intro hmem
  apply h
  simp only [remA, List.mem_map, List.mem_filter, decide_eq_true_eq] at hmem
  obtain ⟨p, ⟨hp, _⟩, hk⟩ := hmem
  exact List.mem_map.mpr ⟨p, hp, hk⟩

theorem mem_ioAdd {κ α : Type} [DecidableEq κ] [DecidableEq α]
    (l : List (κ × α)) (k : κ) (v : α) (x : κ × α) :
    x ∈ ioAdd l k v ↔ x ∈ l ∨ x = (k, v) := by
  unfold ioAdd
  split
  · constructor
    · exact Or.inl
    · rintro (h | rfl)
      · exact h
      · assumption
  · simp [List.mem_append]

theorem mem_ioRem {κ α : Type} [DecidableEq κ] [DecidableEq α]
    (l : List (κ × α)) (k : κ) (v : α) (x : κ × α) :
    x ∈ ioRem l k v ↔ x ∈ l ∧ x ≠ (k, v) := by
  simp [ioRem, List.mem_filter]

/-! ## C2 — `processEcr` authorizes iff all three conditions hold -/

/-- C2: `processEcr` writes the `AuthorizationRecord`
`accts[subject.i] = credential.said` exactly when the subject's key-state
resolves, its LEI is allow-listed and its role is the required role; when any
condition fails the state (in particular the authorization index) is returned
unchanged. -/
theorem processEcr_authorizes_iff (env : AuthEnv) (st : AuthState) (c : Cred) :
    (c.subjectI ∈ env.kevers ∧ c.subjectLEI ∈ env.leis ∧
        c.subjectRole = EBA_DOCUMENT_SUBMITTER_ROLE →
      processEcr env st c = { st with accts := pinA st.accts c.subjectI c.said })
    ∧ (¬ (c.subjectI ∈ env.kevers ∧ c.subjectLEI ∈ env.leis ∧
        c.subjectRole = EBA_DOCUMENT_SUBMITTER_ROLE) →
      processEcr env st c = st) := by
  constructor
  · rintro ⟨h1, h2, h3⟩
    simp [processEcr, h1, h2, h3]
  · intro h
    by_cases h1 : c.subjectI ∈ env.kevers
    · by_cases h2 : c.subjectLEI ∈ env.leis
      · by_cases h3 : c.subjectRole = EBA_DOCUMENT_SUBMITTER_ROLE
        · exact absurd ⟨h1, h2, h3⟩ h
        · simp [processEcr, h1, h2, h3]
      · simp [processEcr, h1, h2]
    · simp [processEcr, h1]

/-- Witness for C2 at a concrete credential satisfying all three rules. -/
theorem processEcr_authorizes_iff_witness :
    (c2Cred.subjectI ∈ c2Env.kevers ∧ c2Cred.subjectLEI ∈ c2Env.leis ∧
      c2Cred.subjectRole = EBA_DOCUMENT_SUBMITTER_ROLE)
    ∧ processEcr c2Env emptyAuthState c2Cred =
        { emptyAuthState with accts := pinA emptyAuthState.accts c2Cred.subjectI c2Cred.said } :=
  ⟨by decide, (processEcr_authorizes_iff c2Env emptyAuthState c2Cred).1 (by decide)⟩

/-! ## C6 — expired escrow entries are dropped by the next sweep -/

theorem processEcr_iss_eq (env : AuthEnv) (st : AuthState) (c : Cred) :
    (processEcr env st c).iss = st.iss := by
  unfold processEcr
  split
  · split
    · split <;> rfl
    · rfl
  · rfl

theorem processEcr_rev_eq (env : AuthEnv) (st : AuthState) (c : Cred) :
    (processEcr env st c).rev = st.rev := by
  unfold processEcr
  split
  · split
    · split <;> rfl
    · rfl
  · rfl

theorem presStep_iss_cases (env : AuthEnv) (now : Nat) (acc : AuthState) (e : String × Nat) :
    (presStep env now acc e).iss = acc.iss ∨
      (presStep env now acc e).iss = remA acc.iss e.1 := by
  unfold presStep
  split
  · exact Or.inr rfl
  · split
    · dsimp only
      split
      · rw [processEcr_iss_eq]
        exact Or.inr rfl
      · exact Or.inr rfl
    · exact Or.inl rfl

theorem presStep_rev_eq (env : AuthEnv) (now : Nat) (acc : AuthState) (e : String × Nat) :
    (presStep env now acc e).rev = acc.rev := by
  unfold presStep
  split
  · rfl
  · split
    · dsimp only
      split
      · rw [processEcr_rev_eq]
      · rfl
    · rfl

theorem revStep_fst_iss_eq (env : AuthEnv) (now : Nat) (acc : AuthState) (e : String × Nat) :
    ((revStep env now acc e).1).iss = acc.iss := by
  unfold revStep
  split
  · rfl
  · split
    · rfl
    · split
      · rfl
      · split
        · rfl
        · split <;> rfl

theorem revStep_fst_rev_cases (env : AuthEnv) (now : Nat) (acc : AuthState) (e : String × Nat) :
    ((revStep env now acc e).1).rev = acc.rev ∨
      ((revStep env now acc e).1).rev = remA acc.rev e.1 := by
  unfold revStep
  split
  · exact Or.inr rfl
  · split
    · exact Or.inl rfl
    · split
      · exact Or.inl rfl
      · split
        · exact Or.inl rfl
        · split
          · exact Or.inr rfl
          · exact Or.inl rfl

theorem foldl_presStep_keeps_out (env : AuthEnv) (now : Nat) (said : String) :
    ∀ (l : List (String × Nat)) (acc : AuthState),
      said ∉ acc.iss.map Prod.fst →
      said ∉ ((l.foldl (presStep env now) acc).iss.map Prod.fst) := by
  intro l
  induction l with
  | nil => intro acc h; exact h
  | cons a t ih =>
    intro acc h
    rw [List.foldl_cons]
    apply ih
    rcases presStep_iss_cases env now acc a with hc | hc
    · rw [hc]; exact h
    · rw [hc]; exact keys_remA_mono acc.iss said a.1 h

theorem foldl_presStep_rev_eq (env : AuthEnv) (now : Nat) :
    ∀ (l : List (String × Nat)) (acc : AuthState),
      (l.foldl (presStep env now) acc).rev = acc.rev := by
  intro l
  induction l with
  | nil => intro acc; rfl
  | cons a t ih =>
    intro acc
    rw [List.foldl_cons, ih, presStep_rev_eq]

theorem revSweep_keeps_out (env : AuthEnv) (now : Nat) (said : String) :
    ∀ (l : List (String × Nat)) (acc : AuthState),
      said ∉ acc.rev.map Prod.fst →
      said ∉ ((revSweep env now acc l).1.rev.map Prod.fst) := by
  intro l
  induction l with
  | nil => intro acc h; exact h
  | cons a t ih =>
    intro acc h
    have hstep : said ∉ ((revStep env now acc a).1.rev.map Prod.fst) := by
      rcases revStep_fst_rev_cases env now acc a with hc | hc
      · rw [hc]; exact h
      · rw [hc]; exact keys_remA_mono acc.rev said a.1 h
    simp only [revSweep]
    cases hr : (revStep env now acc a).2 with
    | none => exact ih _ hstep
    | some err => exact hstep

theorem revSweep_iss_eq (env : AuthEnv) (now : Nat) :
    ∀ (l : List (String × Nat)) (acc : AuthState),
      ((revSweep env now acc l).1).iss = acc.iss := by
  intro l
  induction l with
  | nil => intro acc; rfl
  | cons a t ih =>
    intro acc
    simp only [revSweep]
    cases hr : (revStep env now acc a).2 with
    | none =>
      rw [ih]
      exact revStep_fst_iss_eq env now acc a
    | some err => exact revStep_fst_iss_eq env now acc a

theorem revSweep_expired_removed (env : AuthEnv) (now : Nat) (said : String) (d : Nat)
    (h : TimeoutAuth < now - d) :
    ∀ (l1 : List (String × Nat)) (acc : AuthState) (l2 : List (String × Nat))
      (stf : AuthState),
      revSweep env now acc (l1 ++ (said, d) :: l2) = (stf, none) →
      said ∉ stf.rev.map Prod.fst := by
  have hstep : ∀ b : AuthState, revStep env now b (said, d) =
      ({ b with rev := remA b.rev said }, none) := by
    intro b
    unfold revStep
    rw [if_pos h]
  intro l1
  induction l1 with
  | nil =>
    intro acc l2 stf hs
    rw [List.nil_append] at hs
    simp only [revSweep] at hs
    rw [hstep] at hs
    dsimp only at hs
    have hout := revSweep_keeps_out env now said l2 { acc with rev := remA acc.rev said }
      (notMem_keys_remA acc.rev said)
    rw [hs] at hout
    exact hout
  | cons a t ih =>
    intro acc l2 stf hs
    rw [List.cons_append] at hs
    simp only [revSweep] at hs
    cases hr : (revStep env now acc a).2 with
    | none =>
      rw [hr] at hs
      dsimp only at hs
      exact ih _ l2 stf hs
    | some err =>
      rw [hr] at hs
      dsimp only at hs
      simp at hs

/-- C6 as amended: an expired presentation entry is always removed by the
next sweep, and an expired entry's own loop iteration (in either escrow)
performs nothing but the removal — no credential resolution, no
authorization write, no exception; an expired revocation entry is removed by
the next sweep provided the revocation loop completes, i.e. no confirmed
revocation earlier in the escrow aborts it with the `AttributeError` raised
at the missing `revk` store. -/
theorem expired_escrow_removed (env : AuthEnv) (now : Nat) (st acc : AuthState)
    (said : String) (d : Nat) (h : TimeoutAuth < now - d) :
    ((said, d) ∈ st.iss → said ∉ (processEscrows env now st).1.iss.map Prod.fst)
    ∧ ((said, d) ∈ st.rev → (processEscrows env now st).2 = none →
        said ∉ (processEscrows env now st).1.rev.map Prod.fst)
    ∧ presStep env now acc (said, d) = { acc with iss := remA acc.iss said }
    ∧ revStep env now acc (said, d) = ({ acc with rev := remA acc.rev said }, none) := by
  have hpres : ∀ b : AuthState, presStep env now b (said, d) =
      { b with iss := remA b.iss said } := by
    intro b
    unfold presStep
    rw [if_pos h]
  have hrev : ∀ b : AuthState, revStep env now b (said, d) =
      ({ b with rev := remA b.rev said }, none) := by
    intro b
    unfold revStep
    rw [if_pos h]
  refine ⟨?_, ?_, hpres acc, hrev acc⟩
  · intro hmem
    unfold processEscrows processRevocations
    rw [revSweep_iss_eq]
    unfold processPresentations
    obtain ⟨l1, l2, hsplit⟩ := List.append_of_mem hmem
    rw [hsplit, List.foldl_append, List.foldl_cons, hpres]
    apply foldl_presStep_keeps_out
    exact notMem_keys_remA _ said
  · intro hmem hnone
    have hrevmem : (said, d) ∈ (processPresentations env now st).rev := by
      unfold processPresentations
      rw [foldl_presStep_rev_eq]
      exact hmem
    obtain ⟨l1, l2, hsplit⟩ := List.append_of_mem hrevmem
    unfold processEscrows processRevocations at hnone ⊢
    rw [hsplit] at hnone ⊢
    have hpair : revSweep env now (processPresentations env now st)
        (l1 ++ (said, d) :: l2)
        = ((revSweep env now (processPresentations env now st)
            (l1 ++ (said, d) :: l2)).1, none) := by
      rw [← hnone]
    exact revSweep_expired_removed env now said d h l1 _ l2 _ hpair

/-- Witness for C6 (amended): both entries of `c6St` (received at 0, swept at
1000) expire even though the environment can resolve them, and the sweep
completes without an exception. -/
theorem expired_escrow_removed_witness :
    (TimeoutAuth < 1000 - 0 ∧ ("S1", 0) ∈ c6St.iss ∧ ("S2", 0) ∈ c6St.rev
      ∧ (processEscrows c6Env 1000 c6St).2 = none)
    ∧ "S1" ∉ (processEscrows c6Env 1000 c6St).1.iss.map Prod.fst
    ∧ "S2" ∉ (processEscrows c6Env 1000 c6St).1.rev.map Prod.fst
    ∧ presStep c6Env 1000 c6St ("S1", 0) = { c6St with iss := remA c6St.iss "S1" }
    ∧ revStep c6Env 1000 c6St ("S2", 0)
        = ({ c6St with rev := remA c6St.rev "S2" }, none) := by
  refine ⟨⟨by decide, by decide, by decide, by decide⟩, ?_, ?_, ?_, ?_⟩
  · exact (expired_escrow_removed c6Env 1000 c6St c6St "S1" 0 (by decide)).1 (by decide)
  · exact (expired_escrow_removed c6Env 1000 c6St c6St "S2" 0 (by decide)).2.1 (by decide)
      (by decide)
  · exact (expired_escrow_removed c6Env 1000 c6St c6St "S1" 0 (by decide)).2.2.1
  · exact (expired_escrow_removed c6Env 1000 c6St c6St "S2" 0 (by decide)).2.2.2

/-- C6 counterexample (to the claim as stated): with the revocation escrow
holding the unexpired, already-revoked `SRX` ahead of the expired `EXP`, the
sweep aborts with the `AttributeError` from the missing `revk` store before
reaching `EXP`, which survives the sweep despite having expired. -/
theorem expired_escrow_removed_counterexample :
    (TimeoutAuth < 1000 - 0 ∧ ("EXP", 0) ∈ c6CexSt.rev)
    ∧ processEscrows c6CexEnv 1000 c6CexSt =
        ({ iss := [], rev := [("EXP", 0)], accts := [] },
         some (PyErr.attributeError "revk"))
    ∧ lookupA (processEscrows c6CexEnv 1000 c6CexSt).1.rev "EXP" = some 0 :=
  ⟨⟨by decide, by decide⟩, rfl, rfl⟩

/-! ## C7 — a confirmed revocation crashes at the missing audit store -/

/-- C7: contrary to the claim, the code never records a confirmed revocation
in an audit store: after removing the pending entry from the revocation
escrow (`vdb.rev.rem`), the write `self.vdb.revk.pin(...)` raises
`AttributeError` because `VerifierBaser` defines no `revk` sub-database, and
the sweep crashes.  Evaluated at the failing input: pending revocation
`("SR", 10)`, swept at 100 (unexpired), credential resolved with latest
transaction-event ilk `rev`.  The authorization index is indeed untouched at
the point of the crash. -/
theorem confirmed_revocation_crashes :
    revStep c7Env 100 c7St ("SR", 10) =
      ({ c7St with rev := remA c7St.rev "SR" }, some (PyErr.attributeError "revk"))
    ∧ processEscrows c7Env 100 c7St =
      ({ c7St with rev := remA c7St.rev "SR" }, some (PyErr.attributeError "revk"))
    ∧ ((revStep c7Env 100 c7St ("SR", 10)).1).accts = c7St.accts :=
  ⟨rfl, rfl, rfl⟩

/-! ## C8 — `recordPresentation` overwrites, it is not an insert-if-absent -/

/-- C8 counterexample: with an entry for `S` already escrowed at time 5, a
repeated presentation at time 9 does not leave the original `receivedAt`
unchanged — the pin overwrites it with 9. -/
theorem recordPresentation_counterexample :
    lookupA c8St.iss "S" = some 5
    ∧ lookupA (recordPresentation c8St "S" 9).iss "S" = some 9
    ∧ lookupA (recordPresentation c8St "S" 9).iss "S" ≠ some 5 := by decide

/-- C8 as amended: `recordPresentation` unconditionally pins the current
timestamp for the presented SAID — overwriting any existing entry and thereby
restarting its timeout window — and leaves every other SAID's entry
unchanged. -/
theorem recordPresentation_overwrites (st : AuthState) (said : String) (now : Nat) :
    lookupA (recordPresentation st said now).iss said = some now
    ∧ ∀ k, k ≠ said → lookupA (recordPresentation st said now).iss k = lookupA st.iss k := by
  constructor
  · exact lookupA_pinA_self st.iss said now
  · intro k hk
    exact lookupA_pinA_ne st.iss said k now (fun hh => hk hh.symm)

/-- Witness for C8 (amended): presenting `S` again at time 9 stores 9 and
leaves the unrelated key `T` alone. -/
theorem recordPresentation_overwrites_witness :
    lookupA (recordPresentation c8St "S" 9).iss "S" = some 9
    ∧ ("T" ≠ "S"
       ∧ lookupA (recordPresentation c8St "S" 9).iss "T" = lookupA c8St.iss "T") :=
  ⟨(recordPresentation_overwrites c8St "S" 9).1,
   by decide, (recordPresentation_overwrites c8St "S" 9).2 "T" (by decide)⟩

/-! ## C4 — status-index invariant -/

theorem stIdx_empty : stIdx emptyFilerDB := by
  intro s d
  simp [emptyFilerDB, lookupA]

theorem create_stats_eq (db : FilerDB) (a d f t : String) (ch : List (List Nat)) :
    (Filer.create db a d f t ch).stats = pinA db.stats d
      { submitter := a, filename := f, status := Status.accepted, contentType := t,
        size := (ch.map List.length).sum, message := "" } := rfl

theorem create_stts_eq (db : FilerDB) (a d f t : String) (ch : List (List Nat)) :
    (Filer.create db a d f t ch).stts = ioAdd db.stts Status.accepted d := rfl

theorem stIdx_create (db : FilerDB) (a d f t : String) (ch : List (List Nat))
    (hfresh : lookupA db.stats d = none) (hinv : stIdx db) :
    stIdx (Filer.create db a d f t ch) := by
  intro s d'
  rw [show ((s, d') ∈ (Filer.create db a d f t ch).stts ↔
      ∃ st, lookupA (Filer.create db a d f t ch).stats d' = some st ∧ st.status = s) =
      ((s, d') ∈ ioAdd db.stts Status.accepted d ↔
      ∃ st, lookupA (pinA db.stats d
        { submitter := a, filename := f, status := Status.accepted, contentType := t,
          size := (ch.map List.length).sum, message := "" }) d' = some st ∧ st.status = s)
      from by rw [create_stats_eq, create_stts_eq]]
  by_cases hd : d' = d
  · subst hd
    rw [mem_ioAdd]
    constructor
    · rintro (hmem | hpair)
      · obtain ⟨st, hlk, _⟩ := (hinv s d').mp hmem
        rw [hfresh] at hlk
        cases hlk
      · refine ⟨_, lookupA_pinA_self db.stats d' _, ?_⟩
        cases hpair
        rfl
    · rintro ⟨st, hlk, hst⟩
      rw [lookupA_pinA_self] at hlk
      cases hlk
      right
      rw [← hst]
  · rw [mem_ioAdd,
      lookupA_pinA_ne db.stats d d' _ (fun hh => hd hh.symm)]
    constructor
    · rintro (hmem | hpair)
      · exact (hinv s d').mp hmem
      · cases hpair
        exact absurd rfl hd
    · intro hex
      exact Or.inl ((hinv s d').mpr hex)

theorem update_stats_some (db : FilerDB) (dig : String) (ns : Status) (m : Option String)
    (st0 : ReportStats) (hst : lookupA db.stats dig = some st0) :
    (Filer.update db dig ns m).1 =
      { db with stts := ioAdd (ioRem db.stts st0.status dig) ns dig,
                stats := pinA db.stats dig
                  { st0 with status := ns, message := m.getD st0.message } } := by
  unfold Filer.update
  rw [hst]

theorem stIdx_update (db : FilerDB) (dig : String) (ns : Status) (m : Option String)
    (hinv : stIdx db) : stIdx (Filer.update db dig ns m).1 := by
  cases hst : lookupA db.stats dig with
  | none =>
    have : (Filer.update db dig ns m).1 = db := by
      unfold Filer.update
      rw [hst]
    rw [this]
    exact hinv
  | some st0 =>
    rw [update_stats_some db dig ns m st0 hst]
    intro s d'
    by_cases hd : d' = dig
    · subst hd
      show (s, d') ∈ ioAdd (ioRem db.stts st0.status d') ns d' ↔ _
      rw [mem_ioAdd, mem_ioRem]
      constructor
      · rintro (⟨hmem, hne⟩ | hpair)
        · obtain ⟨st', hlk, hs'⟩ := (hinv s d').mp hmem
          rw [hst] at hlk
          cases hlk
          exact absurd (by rw [hs']) hne
        · cases hpair
          exact ⟨_, lookupA_pinA_self db.stats d' _, rfl⟩
      · rintro ⟨st, hlk, hs⟩
        rw [lookupA_pinA_self] at hlk
        cases hlk
        right
        rw [← hs]
    · show (s, d') ∈ ioAdd (ioRem db.stts st0.status dig) ns dig ↔ _
      rw [mem_ioAdd, mem_ioRem,
        show lookupA (pinA db.stats dig
          { st0 with status := ns, message := m.getD st0.message }) d' = lookupA db.stats d'
          from lookupA_pinA_ne db.stats dig d' _ (fun hh => hd hh.symm)]
      constructor
      · rintro (⟨hmem, _⟩ | hpair)
        · exact (hinv s d').mp hmem
        · cases hpair
          exact absurd rfl hd
      · intro hex
        exact Or.inl ⟨(hinv s d').mpr hex, fun hh => hd (congrArg Prod.snd hh)⟩

theorem stIdx_freshRun (ops : List FilerOp) :
    ∀ db : FilerDB, stIdx db → freshRun db ops = true → stIdx (applyOps db ops) := by
  induction ops with
  | nil =>
    intro db h _
    exact h
  | cons op rest ih =>
    intro db h hfr
    cases op with
    | create a d f t ch =>
      rw [show freshRun db (FilerOp.create a d f t ch :: rest) =
          ((lookupA db.stats d).isNone
            && freshRun (applyOp db (FilerOp.create a d f t ch)) rest) from rfl,
        Bool.and_eq_true] at hfr
      obtain ⟨hop, hrest⟩ := hfr
      exact ih _ (stIdx_create db a d f t ch (Option.isNone_iff_eq_none.mp hop) h) hrest
    | update dg s msg =>
      rw [show freshRun db (FilerOp.update dg s msg :: rest) =
          (true && freshRun (applyOp db (FilerOp.update dg s msg)) rest) from rfl,
        Bool.true_and] at hfr
      exact ih _ (stIdx_update db dg s msg h) hfr

/-- C4 counterexample: upload digest `D`, let the sweep mark it `verified`,
then re-upload the same digest — `D`'s stats say `accepted` while `D` still
sits in the `verified` status set as well, so it is in two status sets at
once. -/
theorem status_index_counterexample :
    (lookupA (applyOps emptyFilerDB c4Ops).stats "D").map ReportStats.status
        = some Status.accepted
    ∧ (Status.verified, "D") ∈ (applyOps emptyFilerDB c4Ops).stts
    ∧ (Status.accepted, "D") ∈ (applyOps emptyFilerDB c4Ops).stts := by decide

/-- C4 as amended: after any sequence of `create`/`update` calls from the
empty store in which every `create` targets a digest with no existing
`ReportStats` record, each digest with a stats record of status `S` is in the
status set for `S` and in no other status set.  (A `create` over an existing
digest breaks the invariant by leaving the stale entry in the old status
set.) -/
theorem status_index_invariant_fresh (ops : List FilerOp)
    (h : freshRun emptyFilerDB ops = true) :
    ∀ (d : String) (st : ReportStats),
      lookupA (applyOps emptyFilerDB ops).stats d = some st →
      (st.status, d) ∈ (applyOps emptyFilerDB ops).stts
      ∧ ∀ s, s ≠ st.status → (s, d) ∉ (applyOps emptyFilerDB ops).stts := by
  have hinv := stIdx_freshRun ops emptyFilerDB stIdx_empty h
  intro d st hlk
  constructor
  · exact (hinv st.status d).mpr ⟨st, hlk, rfl⟩
  · intro s hs hmem
    obtain ⟨st', hlk', hst'⟩ := (hinv s d).mp hmem
    rw [hlk] at hlk'
    cases hlk'
    exact hs hst'.symm

/-- Witness for C4 (amended): the fresh sequence `w4Ops` leaves `D` exactly in
the `verified` set. -/
theorem status_index_invariant_fresh_witness :
    freshRun emptyFilerDB w4Ops = true
    ∧ lookupA (applyOps emptyFilerDB w4Ops).stats "D" = some w4Stats
    ∧ (Status.verified, "D") ∈ (applyOps emptyFilerDB w4Ops).stts
    ∧ (Status.accepted, "D") ∉ (applyOps emptyFilerDB w4Ops).stts := by
  refine ⟨by decide, by decide, ?_, ?_⟩
  · exact (status_index_invariant_fresh w4Ops (by decide) "D" w4Stats (by decide)).1
  · exact (status_index_invariant_fresh w4Ops (by decide) "D" w4Stats (by decide)).2
      Status.accepted (by decide)

/-! ## C5 — terminal statuses and the verification sweep -/

theorem not_mem_acceptedKeys (db : FilerDB) (dig : String)
    (h : (Status.accepted, dig) ∉ db.stts) : dig ∉ acceptedKeys db := by
  intro hmem
  simp only [acceptedKeys, List.mem_map, List.mem_filter, decide_eq_true_eq] at hmem
  obtain ⟨p, ⟨hp, hacc⟩, hsnd⟩ := hmem
  apply h
  have : p = (Status.accepted, dig) := Prod.ext hacc hsnd
  rw [← this]
  exact hp

theorem update_stats_ne (db : FilerDB) (d1 d2 : String) (s : Status) (m : Option String)
    (h : d2 ≠ d1) :
    lookupA ((Filer.update db d1 s m).1).stats d2 = lookupA db.stats d2 := by
  cases hst : lookupA db.stats d1 with
  | none =>
    have : (Filer.update db d1 s m).1 = db := by
      unfold Filer.update
      rw [hst]
    rw [this]
  | some st0 =>
    rw [update_stats_some db d1 s m st0 hst]
    exact lookupA_pinA_ne db.stats d1 d2 _ (fun hh => h hh.symm)

theorem recurStep_stats_ne (env : REnv) (db : FilerDB) (d1 d2 : String) (h : d2 ≠ d1) :
    ∀ db', recurStep env db d1 = Except.ok db' →
      lookupA db'.stats d2 = lookupA db.stats d2 := by
  intro db' hr
  unfold recurStep at hr
  cases hp : processOne env db d1 with
  | ok pr =>
    rw [hp] at hr
    cases hr
    exact update_stats_ne db d1 d2 pr.1 (some pr.2) h
  | error e =>
    rw [hp] at hr
    dsimp only at hr
    by_cases hc : catchableOuter e = true
    · rw [if_pos hc] at hr
      cases hr
      exact update_stats_ne db d1 d2 Status.failed (some (errMsg e)) h
    · rw [if_neg hc] at hr
      cases hr

theorem foldE_recurStep_stats (env : REnv) :
    ∀ (l : List String) (dig : String), dig ∉ l →
      ∀ db db', foldE (recurStep env) db l = Except.ok db' →
        lookupA db'.stats dig = lookupA db.stats dig := by
  intro l
  induction l with
  | nil =>
    intro dig _ db db' hf
    cases hf
    rfl
  | cons a t ih =>
    intro dig hd db db' hf
    have ha : dig ≠ a := fun hh => hd (hh ▸ List.mem_cons_self a t)
    have ht : dig ∉ t := fun hm => hd (List.mem_cons_of_mem a hm)
    simp only [foldE] at hf
    cases hr : recurStep env db a with
    | error e =>
      rw [hr] at hf
      dsimp only at hf
      cases hf
    | ok db1 =>
      rw [hr] at hf
      dsimp only at hf
      rw [ih dig ht db1 db' hf]
      exact recurStep_stats_ne env db a dig ha db1 hr

/-- C5 counterexample: after `D` reaches the terminal status `verified`, a
re-upload under the same digest (`POST /reports/{aid}/{dig}` calls
`Filer.create` unconditionally) transitions `D` back to `accepted` — no new
digest is needed for reconsideration. -/
theorem terminal_status_counterexample :
    (lookupA (applyOps emptyFilerDB c5Ops).stats "D").map ReportStats.status
        = some Status.verified
    ∧ (lookupA (applyOp (applyOps emptyFilerDB c5Ops) c5Reupload).stats "D").map
        ReportStats.status = some Status.accepted := by decide

/-- C5 as amended: a report whose stats are `verified` or `failed` and which
(as the status index guarantees for a consistent store) is absent from the
`accepted` status set is never touched by a verification sweep — `recur`
iterates only digests of the `accepted` set, and each iteration updates only
its own digest.  Terminality holds against the sweep; it does not hold
against `Filer.create`, which on a re-upload of the same digest resets the
status to `accepted`. -/
theorem terminal_status_not_reswept (env : REnv) (db db' : FilerDB) (dig : String)
    (_hterm : (lookupA db.stats dig).map ReportStats.status = some Status.verified
      ∨ (lookupA db.stats dig).map ReportStats.status = some Status.failed)
    (hidx : (Status.accepted, dig) ∉ db.stts)
    (hrec : recur env db = Except.ok db') :
    lookupA db'.stats dig = lookupA db.stats dig :=
  foldE_recurStep_stats env (acceptedKeys db) dig
    (not_mem_acceptedKeys db dig hidx) db db' hrec

/-- Witness for C5 (amended): a store holding only the `verified` report `DV`
is left untouched by a sweep. -/
theorem terminal_status_not_reswept_witness :
    ((lookupA w5Db.stats "DV").map ReportStats.status = some Status.verified
      ∧ (Status.accepted, "DV") ∉ w5Db.stts
      ∧ recur w5Env w5Db = Except.ok w5Db)
    ∧ lookupA w5Db.stats "DV" = lookupA w5Db.stats "DV" :=
  ⟨⟨by decide, by decide, rfl⟩,
   terminal_status_not_reswept w5Env w5Db w5Db "DV" (Or.inl (by decide)) (by decide) rfl⟩

/-! ## C3 — what the worker catches and what escapes it -/

theorem recurStep_error (env : REnv) (db : FilerDB) (dig : String) (e : Err)
    (h : recurStep env db dig = Except.error e) : catchableOuter e = false := by
  unfold recurStep at h
  cases hp : processOne env db dig with
  | ok pr =>
    rw [hp] at h
    dsimp only at h
    cases h
  | error e' =>
    rw [hp] at h
    dsimp only at h
    by_cases hc : catchableOuter e' = true
    · rw [if_pos hc] at h
      cases h
    · rw [if_neg hc] at h
      cases h
      exact Bool.not_eq_true _ ▸ hc

theorem foldE_recurStep_error (env : REnv) :
    ∀ (l : List String) (db : FilerDB) (e : Err),
      foldE (recurStep env) db l = Except.error e → catchableOuter e = false := by
  intro l
  induction l with
  | nil =>
    intro db e h
    cases h
  | cons a t ih =>
    intro db e h
    simp only [foldE] at h
    cases hr : recurStep env db a with
    | error e' =>
      rw [hr] at h
      dsimp only at h
      cases h
      exact recurStep_error env db a e hr
    | ok db1 =>
      rw [hr] at h
      dsimp only at h
      exact ih db1 e h

/-- C3 counterexample: one accepted report whose extracted archive contains a
syntactically invalid `META-INF/reports.json` — `json.load` raises
`JSONDecodeError`, which is not in the worker's `except (ValidationError,
BadZipFile)` clause, so the sweep raises past the worker boundary instead of
converting the decode error into a `failed` transition. -/
theorem sweep_uncaught_json_counterexample :
    recur c3Env c3Db = Except.error Err.jsonDecode
    ∧ catchableOuter Err.jsonDecode = false := ⟨rfl, rfl⟩

/-- C3 as amended: the verification worker catches exactly
`kering.ValidationError` and `zipfile.BadZipFile` (converting them into
`failed` transitions); any exception of another class — a JSON decode error
from a malformed manifest, an `IndexError` from an out-of-range signature key
index, an `AttributeError` from a missing stats record — propagates out of
`recur`, abandoning the remaining accepted reports of that sweep.  (The
escrow engine's loops have no per-entry handler either.)  Formally: every
error that escapes `recur` is non-catchable. -/
theorem recur_raises_only_uncatchable (env : REnv) (db : FilerDB) (e : Err)
    (h : recur env db = Except.error e) : catchableOuter e = false :=
  foldE_recurStep_error env (acceptedKeys db) db e h

/-- Witness for C3 (amended): a submitter signature entry declaring key index
5 against an empty key list makes the sweep raise `IndexError`, a
non-catchable error. -/
theorem recur_raises_only_uncatchable_witness :
    recur w3Env w3Db = Except.error Err.indexError
    ∧ catchableOuter Err.indexError = false :=
  ⟨rfl, recur_raises_only_uncatchable w3Env w3Db Err.indexError rfl⟩

/-! ## C1 — the signed set and the submitter-skip in the verification sweep -/

theorem processEntry_ok_shape (env : REnv) (sub : String) (metaDir : List String)
    (signed : List String) (e : SigEntry) (r : List String)
    (h : processEntry env sub metaDir signed e = Except.ok r) :
    ∃ f, e.file = some f ∧ r = signed ++ [basename (normJoin metaDir f)] := by
  have h' : entryInner env sub metaDir signed e = Except.ok r := by
    unfold processEntry at h
    cases hi : entryInner env sub metaDir signed e with
    | ok v =>
      rw [hi] at h
      dsimp only at h
      exact h
    | error er =>
      rw [hi] at h
      cases er <;> dsimp only at h <;> cases h
  clear h
  unfold entryInner at h'
  cases hf : e.file with
  | none =>
    rw [hf] at h'
    dsimp only at h'
    cases h'
  | some file =>
    rw [hf] at h'
    dsimp only at h'
    refine ⟨file, rfl, ?_⟩
    cases hread : env.readFile (normJoin metaDir file) with
    | none =>
      rw [hread] at h'
      dsimp only at h'
      cases h'
    | some ser =>
      rw [hread] at h'
      dsimp only at h'
      cases ha : e.aid with
      | none =>
        rw [ha] at h'
        dsimp only at h'
        cases h'
      | some aid =>
        rw [ha] at h'
        dsimp only at h'
        by_cases hs : aid = sub
        · rw [if_pos hs] at h'
          cases hk : lookupA env.kevers aid with
          | none =>
            rw [hk] at h'
            dsimp only at h'
            cases h'
          | some kever =>
            rw [hk] at h'
            dsimp only at h'
            cases hsig : e.sigs with
            | none =>
              rw [hsig] at h'
              dsimp only at h'
              cases h'
            | some sigs =>
              rw [hsig] at h'
              dsimp only at h'
              by_cases hlen : sigs.length = 0
              · rw [if_pos hlen] at h'
                cases h'
              · rw [if_neg hlen] at h'
                cases hv : verifySigs env kever ser file sigs with
                | error er =>
                  rw [hv] at h'
                  dsimp only at h'
                  cases h'
                | ok u =>
                  rw [hv] at h'
                  dsimp only at h'
                  cases h'
                  rfl
        · rw [if_neg hs] at h'
          cases h'
          rfl

theorem foldE_entries_signed (env : REnv) (sub : String) (metaDir : List String) :
    ∀ (entries : List SigEntry) (signed0 signed : List String),
      foldE (processEntry env sub metaDir) signed0 entries = Except.ok signed →
      signed = signed0 ++ entries.filterMap (entryBase metaDir) := by
  intro entries
  induction entries with
  | nil =>
    intro s0 s h
    cases h
    simp [entryBase]
  | cons e t ih =>
    intro s0 s h
    simp only [foldE] at h
    cases hp : processEntry env sub metaDir s0 e with
    | error er =>
      rw [hp] at h
      dsimp only at h
      cases h
    | ok r =>
      rw [hp] at h
      dsimp only at h
      obtain ⟨f, hf, hr⟩ := processEntry_ok_shape env sub metaDir s0 e r hp
      rw [ih r s h, hr]
      simp [entryBase, hf, List.filterMap_cons, List.append_assoc]

theorem diff_empty_iff (files signed : List String) :
    (files.dedup.filter (fun f => decide (¬ f ∈ signed))).length = 0
    ↔ ∀ f ∈ files, f ∈ signed := by
  rw [List.length_eq_zero]
  constructor
  · intro h f hf
    by_contra hn
    have hm : f ∈ files.dedup.filter (fun f => decide (¬ f ∈ signed)) := by
      rw [List.mem_filter]
      exact ⟨List.mem_dedup.mpr hf, by simpa using hn⟩
    rw [h] at hm
    cases hm
  · intro h
    apply List.filter_eq_nil_iff.mpr
    intro a ha
    simp only [decide_eq_true_eq, Decidable.not_not]
    exact h a (List.mem_dedup.mp ha)

/-- C1 as amended: an entry whose `aid` differs from the submitter is skipped
only after its file's base name has already been appended to the signed list,
so it still counts toward completeness (its key state and signatures are
never checked).  Consequently, when every signature entry processes without
an exception, the signed set is the base names of all manifest entries
regardless of signer, and the report goes `verified` iff every file of the
final `files` listing appears among those base names, `failed` (listing the
difference) otherwise. -/
theorem verify_sweep_signed_set (env : REnv) (stats : ReportStats)
    (walk : List WalkEntry) (wst : WalkSt) (m : Manifest) (di : DocInfo)
    (entries : List SigEntry) (signed : List String)
    (hw : foldE walkStep walkInit walk = Except.ok wst)
    (hm : wst.manifest = some m) (hdi : m.documentInfo = some di)
    (hsig : di.signatures = some entries)
    (hf : foldE (processEntry env stats.submitter wst.metaDir) [] entries
      = Except.ok signed) :
    signed = entries.filterMap (entryBase wst.metaDir)
    ∧ ((∃ msg, verifyWalk env stats walk = Except.ok (Status.verified, msg))
        ↔ ∀ f ∈ wst.files, f ∈ signed)
    ∧ ((∃ msg, verifyWalk env stats walk = Except.ok (Status.failed, msg))
        ↔ ¬ ∀ f ∈ wst.files, f ∈ signed) := by
  have hsg : signed = entries.filterMap (entryBase wst.metaDir) := by
    simpa using foldE_entries_signed env stats.submitter wst.metaDir entries [] signed hf
  have hvw : verifyWalk env stats walk =
      if (wst.files.dedup.filter (fun f => decide (¬ f ∈ signed))).length = 0 then
        Except.ok (Status.verified,
          "All " ++ toString wst.files.length ++
          " files in report package have been signed by submitter (" ++
          stats.submitter ++ ").")
      else
        Except.ok (Status.failed,
          toString (wst.files.dedup.filter (fun f => decide (¬ f ∈ signed))).length ++
          " files from report package not signed " ++
          toString (wst.files.dedup.filter (fun f => decide (¬ f ∈ signed))) ++ ", " ++
          toString signed) := by
    unfold verifyWalk
    rw [hw]
    dsimp only
    rw [hm]
    dsimp only
    rw [hdi]
    dsimp only
    rw [hsig]
    dsimp only
    rw [hf]
  refine ⟨hsg, ?_, ?_⟩
  · rw [hvw]
    by_cases hd : (wst.files.dedup.filter (fun f => decide (¬ f ∈ signed))).length = 0
    · rw [if_pos hd]
      constructor
      · intro _
        exact (diff_empty_iff wst.files signed).mp hd
      · intro _
        exact ⟨_, rfl⟩
    · rw [if_neg hd]
      constructor
      · rintro ⟨msg, hmsg⟩
        simp at hmsg
      · intro hall
        exact absurd ((diff_empty_iff wst.files signed).mpr hall) hd
  · rw [hvw]
    by_cases hd : (wst.files.dedup.filter (fun f => decide (¬ f ∈ signed))).length = 0
    · rw [if_pos hd]
      constructor
      · rintro ⟨msg, hmsg⟩
        simp at hmsg
      · intro hn
        exact absurd ((diff_empty_iff wst.files signed).mp hd) hn
    · rw [if_neg hd]
      constructor
      · intro _
        intro hall
        exact hd ((diff_empty_iff wst.files signed).mpr hall)
      · intro _
        exact ⟨_, rfl⟩

/-- C1 counterexample: the report `D1` carries one manifest entry whose aid
`OTHER` is not the submitter `SUB`; the sweep still marks the report
`verified` although the set of files signed by the submitter is empty while
`reports/` holds `a.xbrl` — the skipped entry contributed its base name to
the signed set before the aid check. -/
theorem submitter_skip_counterexample :
    ((recur c1Env c1Db).toOption.bind
        (fun db => (lookupA db.stats "D1").map ReportStats.status)) = some Status.verified
    ∧ specSubmitterSigned ["r", "META-INF"] "SUB" c1Entries = []
    ∧ (foldE walkStep walkInit c1Walk).toOption.map WalkSt.files = some ["a.xbrl"] :=
  ⟨rfl, rfl, rfl⟩

/-- Witness for C1 (amended): a package properly signed by the submitter
produces the signed set `["b.xbrl"]` and verifies. -/
theorem verify_sweep_signed_set_witness :
    (foldE walkStep walkInit w1Walk = Except.ok w1Wst
      ∧ foldE (processEntry w1Env w1Stats.submitter w1Wst.metaDir) [] w1Entries
          = Except.ok ["b.xbrl"])
    ∧ ["b.xbrl"] = w1Entries.filterMap (entryBase w1Wst.metaDir)
    ∧ (∃ msg, verifyWalk w1Env w1Stats w1Walk = Except.ok (Status.verified, msg)) := by
  have hth := verify_sweep_signed_set w1Env w1Stats w1Walk w1Wst
    { documentInfo := some { signatures := some w1Entries } }
    { signatures := some w1Entries } w1Entries ["b.xbrl"]
    rfl rfl rfl rfl rfl
  exact ⟨⟨rfl, rfl⟩, hth.1, hth.2.1.mpr (by decide)⟩

/-! ## C9 — `POST /request/verify/{aid}` crashes before verifying -/

/-- C9: for any request reaching the signature-verification step (known AID
with an `AuthorizationRecord`), `RequestVerifierResourceEnd.on_post` raises
`AttributeError` at `verfers = kever.ververs` — `Kever` exposes `verfers`,
not `ververs` (and `data.decode` on a `str` would be a further
`AttributeError`) — so the endpoint can never return the documented 401 or
202; here evaluated at the concrete failing input `aid = A9`. -/
theorem requestVerify_attribute_error :
    requestVerifyOnPost c9Kevers c9Accts (fun _ _ _ => true) "A9" "data" "sig"
      = Except.error (PyErr.attributeError "ververs")
    ∧ requestVerifyOnPost c9Kevers c9Accts (fun _ _ _ => false) "A9" "data" "sig"
      = Except.error (PyErr.attributeError "ververs") :=
  ⟨rfl, rfl⟩

/-! ## C10 — `GET /reports/{aid}/{dig}` has no ownership check -/

/-- C10: for every AID with known key state and an `AuthorizationRecord`, and
every digest with a stats record, `ReportResourceEnd.on_get` returns 200 with
the full serialized `ReportStats` even when the record's `submitter` is a
different AID — no ownership check links `aid` to the report. -/
theorem report_get_no_ownership_check (kevers : List String)
    (accts : List (String × String)) (db : FilerDB) (aid dig : String)
    (stats : ReportStats)
    (h1 : aid ∈ kevers) (h2 : lookupA accts aid ≠ none)
    (h3 : lookupA db.stats dig = some stats) (_h4 : stats.submitter ≠ aid) :
    reportOnGet kevers accts db aid dig = ReportGetResp.ok stats := by
  unfold reportOnGet Filer.get
  rw [if_neg (not_not_intro h1), if_neg h2, h3]

/-- Witness for C10: the authorized `A10` reads the status of `B10`'s report
`DX`. -/
theorem report_get_no_ownership_check_witness :
    ("A10" ∈ c10Kevers ∧ lookupA c10Accts "A10" ≠ none
      ∧ lookupA c10Db.stats "DX" = some c10Stats ∧ c10Stats.submitter ≠ "A10")
    ∧ reportOnGet c10Kevers c10Accts c10Db "A10" "DX" = ReportGetResp.ok c10Stats :=
  ⟨⟨by decide, by decide, by decide, by decide⟩,
   report_get_no_ownership_check c10Kevers c10Accts c10Db "A10" "DX" c10Stats
     (by decide) (by decide) (by decide) (by decide)⟩
